import Mathlib

/-!
Verification of the Springfield / generalized city mapping pipeline
(`week3d1_helper.py` and `week3d1_helper_general.py`).

Strings of the Python source are embedded as `List Char`; Python `str.strip`,
`str.split`, substring tests and the two regular expressions are modelled
character by character.  Network responses, file-system state and the geometry
library are explicit data (or Boolean predicates) passed to the embedded
functions.  Machine floats are modelled as rationals.
-/

/-- Whitespace characters removed by Python `str.strip()` (ASCII range). -/
def isSpaceChar (c : Char) : Bool :=
  c == ' ' || c == '\t' || c == '\n' || c == '\r' || c == '\x0b' || c == '\x0c'

/-- Python `str.strip()`: drop leading and trailing whitespace. -/
def pyStrip (l : List Char) : List Char :=
  ((l.dropWhile isSpaceChar).reverse.dropWhile isSpaceChar).reverse

/-- Python `s.upper()`. -/
def pyUpper (l : List Char) : List Char :=
  l.map Char.toUpper

/-- The characters of `s.split(c, 1)[0]`: everything before the first `c`. -/
def beforeChar (c : Char) (l : List Char) : List Char :=
  l.takeWhile (fun x => x != c)

/-- The characters of `s.split(c, 1)[1]`: everything after the first `c`. -/
def afterChar (c : Char) (l : List Char) : List Char :=
  (l.dropWhile (fun x => x != c)).drop 1

/-- Does `s` start with the pattern `p` (Python `str.startswith`)? -/
def leadsWith : List Char → List Char → Bool
  | [], _ => true
  | _ :: _, [] => false
  | p :: ps, c :: cs => p == c && leadsWith ps cs

/-- Python substring containment `pat in s`. -/
def containsSeq (pat : List Char) : List Char → Bool
  | [] => leadsWith pat []
  | c :: cs => leadsWith pat (c :: cs) || containsSeq pat cs

/-- Python `content.split('\n')`. -/
def splitLines : List Char → List (List Char)
  | [] => [[]]
  | c :: cs =>
    if c = '\n' then [] :: splitLines cs
    else
      match splitLines cs with
      | [] => [[c]]
      | l :: ls => (c :: l) :: ls

/-- Join lines with newline separators (left inverse of `splitLines` on
newline-free lines; used to build concrete markup in theorems). -/
def joinLines : List (List Char) → List Char
  | [] => []
  | [l] => l
  | l :: ls => l ++ '\n' :: joinLines ls

/-- A parsed disambiguation entry: wiki link target, city part, state part
(the dict `{'title': entry, 'city': location, 'state': state_info}` built by
the parser in both source files). -/
structure CandidateEntry where
  title : List Char
  city : List Char
  state : List Char
deriving DecidableEq

/-- The regular expression `\[\[([^\]]+)\]\]` tested at the head of `s`:
two brackets, a nonempty run free of `]`, then `]]`. -/
def linkAt (s : List Char) : Option (List Char) :=
  match s with
  | '[' :: '[' :: rest =>
    let run := rest.takeWhile (fun c => c != ']')
    let rem := rest.dropWhile (fun c => c != ']')
    if run.isEmpty then none
    else
      match rem with
      | ']' :: ']' :: _ => some run
      | _ => none
  | _ => none

/-- `re.search(r'\[\[([^\]]+)\]\]', line)`: the group of the leftmost match. -/
def firstLink : List Char → Option (List Char)
  | [] => none
  | c :: cs =>
    match linkAt (c :: cs) with
    | some r => some r
    | none => firstLink cs

/-- `entry.split('|')[0]` applied when `'|' in entry` (source lines 69-70). -/
def pipeTrim (entry : List Char) : List Char :=
  if entry.contains '|' then beforeChar '|' entry else entry

/-- Source lines 75-79: strip the raw state label, and truncate at the first
open parenthesis (stripping again) when one is present. -/
def postProcessState (raw : List Char) : List Char :=
  let s := pyStrip raw
  if s.contains '(' then pyStrip (beforeChar '(' s) else s

/-- Source lines 73-85: if the (pipe-trimmed) entry contains a comma, split at
the first comma into city (as written) and processed state label. -/
def splitEntry (entry : List Char) : Option CandidateEntry :=
  if entry.contains ',' then
    some ⟨entry, beforeChar ',' entry, postProcessState (afterChar ',' entry)⟩
  else none

/-- Handling of one bulleted line (source lines 58-85): extract the first
wiki link, trim alternate display text, split into city and state. -/
def processBullet (line : List Char) : Option CandidateEntry :=
  (firstLink line).bind (fun e => splitEntry (pipeTrim e))

/-- The section marker substring tested by `"=== United States ===" in line`. -/
def usMarker : List Char := "=== United States ===".data

/-- The heading test `line.startswith('===')`. -/
def hdr3 : List Char := ['=', '=', '=']

/-- `line.strip().startswith('*')`. -/
def isBulletLine (line : List Char) : Bool :=
  leadsWith ['*'] (pyStrip line)

/-- The parser loop of both source files (lines 48-85): a line containing the
United States marker turns collection on (and is otherwise skipped); inside
the section a line starting with `===` terminates the whole scan; bulleted
lines inside the section contribute their parsed entry, if any. -/
def parseLines : List (List Char) → Bool → List CandidateEntry
  | [], _ => []
  | line :: rest, inUS =>
    if containsSeq usMarker line then
      parseLines rest true
    else if inUS && leadsWith hdr3 line then
      []
    else if inUS && isBulletLine line then
      match processBullet line with
      | some e => e :: parseLines rest inUS
      | none => parseLines rest inUS
    else
      parseLines rest inUS

/-- `parse_us_springfields_from_wikitext` of `week3d1_helper.py`. -/
def parse_us_springfields_from_wikitext (content : List Char) : List CandidateEntry :=
  parseLines (splitLines content) false

/-- `parse_us_cities_from_wikitext` of `week3d1_helper_general.py`
(character-identical parsing logic). -/
def parse_us_cities_from_wikitext (content : List Char) : List CandidateEntry :=
  parseLines (splitLines content) false

/-! ## Coordinate resolver (`get_coordinates_batch`, lines 89-171 of both files)

The Wikipedia query API is modelled as a function from the list of requested
titles to an optional list of pages (`none` embeds both a
`requests.RequestException` and a response without `query`/`pages`, either of
which makes the batch contribute nothing).  Python `float()` is an opaque
library call and is passed in as a parameter `pf`; a failed parse (`none`)
embeds the `ValueError` that makes the code skip the entry.  The uncaught
`IndexError` of `page['coordinates'][0]` on an empty list is embedded as
`Except.error`. -/

/-- One structured coordinate pair from the API (`coords['lat']`, `coords['lon']`). -/
structure APICoord where
  lat : ℚ
  lon : ℚ
deriving DecidableEq

/-- One page of the API response: title, the optional `coordinates` list, the
optional list of revision contents, and the optional `canonicalurl`. -/
structure APIPage where
  title : List Char
  coordinates : Option (List APICoord)
  revisions : Option (List (List Char))
  canonicalurl : Option (List Char)
deriving DecidableEq

/-- One row of the DataFrame returned by `get_coordinates_batch`. -/
structure ResolvedPlace where
  title : List Char
  city : List Char
  state : List Char
  latitude : ℚ
  longitude : ℚ
  url : List Char
deriving DecidableEq

/-- Case-insensitive literal match at the head of `s` (the `re.IGNORECASE`
literal part `{{coord` of the template regex); `pat` is given lowercase. -/
def ciLeadsWith : List Char → List Char → Bool
  | [], _ => true
  | _ :: _, [] => false
  | p :: ps, c :: cs => c.toLower == p && ciLeadsWith ps cs

/-- One regex field `\|([^|}]+)`: a pipe followed by a nonempty run free of
`|` and `}`; returns the run and the unconsumed remainder. -/
def readField (s : List Char) : Option (List Char × List Char) :=
  match s with
  | '|' :: rest =>
    let run := rest.takeWhile (fun c => c != '|' && c != '\x7d')
    if run.isEmpty then none else some (run, rest.drop run.length)
  | _ => none

/-- `n` consecutive regex fields. -/
def readFields : Nat → List Char → Option (List (List Char) × List Char)
  | 0, s => some ([], s)
  | n + 1, s =>
    (readField s).bind fun fs =>
      (readFields n fs.2).map fun rest => (fs.1 :: rest.1, rest.2)

/-- The template regex
`{{coord\|([^|}]+)\|([^|}]+)\|([^|}]+)\|([^|}]+)\|([^|}]+)\|([^|}]+)\|([^|}]+)\|([^|}]+)`
(case-insensitive) tested at the head of `s`. -/
def coordTemplateAt (s : List Char) : Option (List (List Char)) :=
  if ciLeadsWith "\x7b\x7bcoord".data s then
    (readFields 8 (s.drop 7)).map (·.1)
  else none

/-- `re.search` of the template regex: groups of the leftmost match. -/
def findCoordTemplate : List Char → Option (List (List Char))
  | [] => none
  | c :: cs =>
    match coordTemplateAt (c :: cs) with
    | some fields => some fields
    | none => findCoordTemplate cs

/-- Source lines 142-153: decimal conversion of the eight template fields
after `float()` parses of the six numeric ones. -/
def coordFromTemplate (latDeg latMin latSec : ℚ) (latDir : List Char)
    (lonDeg lonMin lonSec : ℚ) (lonDir : List Char) : APICoord :=
  let lat := latDeg + latMin / 60 + latSec / 3600
  let lon := lonDeg + lonMin / 60 + lonSec / 3600
  let lat := if pyUpper latDir = "S".data then -lat else lat
  let lon := if pyUpper lonDir = "W".data then -lon else lon
  ⟨lat, lon⟩

/-- Source lines 124-155: the coordinates selected for one page.
`page['coordinates'][0]` on an empty list raises an uncaught `IndexError`
(`Except.error`); an unparsable or absent template yields no coordinates
(`Except.ok none`). -/
def extractPageCoordinates (pf : List Char → Option ℚ) (page : APIPage) :
    Except Unit (Option APICoord) :=
  match page.coordinates with
  | some [] => .error ()
  | some (c :: _) => .ok (some c)
  | none =>
    match page.revisions with
    | some (content :: _) =>
      match findCoordTemplate content with
      | some [latDeg, latMin, latSec, latDir, lonDeg, lonMin, lonSec, lonDir] =>
        match pf latDeg, pf latMin, pf latSec, pf lonDeg, pf lonMin, pf lonSec with
        | some a, some b, some c, some d, some e, some f =>
          .ok (some (coordFromTemplate a b c latDir d e f lonDir))
        | _, _, _, _, _, _ => .ok none
      | _ => .ok none
    | _ => .ok none

/-- Source lines 119-165 for one page: match the page back to its candidate
entry by exact title equality (an unmatched page is skipped), then resolve
coordinates and build the result row. -/
def processPage (pf : List Char → Option ℚ) (batch : List CandidateEntry)
    (page : APIPage) : Except Unit (Option ResolvedPlace) :=
  match batch.find? (fun s => s.title == page.title) with
  | none => .ok none
  | some original =>
    (extractPageCoordinates pf page).map fun oc =>
      match oc with
      | some coord =>
        some ⟨page.title, original.city, original.state,
              coord.lat, coord.lon, page.canonicalurl.getD []⟩
      | none => none

/-- Iteration over `data['query']['pages'].items()` accumulating result rows. -/
def processPages (pf : List Char → Option ℚ) (batch : List CandidateEntry) :
    List APIPage → Except Unit (List ResolvedPlace)
  | [] => .ok []
  | p :: ps => do
    let r ← processPage pf batch p
    let rest ← processPages pf batch ps
    pure (match r with | some x => x :: rest | none => rest)

/-- The batching loop `for i in range(0, len(...), batch_size)` with
`batch_size = 50`; a failed request (`net ... = none`) skips the batch. -/
def batchLoop (pf : List Char → Option ℚ)
    (net : List (List Char) → Option (List APIPage)) :
    List CandidateEntry → Except Unit (List ResolvedPlace)
  | [] => .ok []
  | e :: es => do
    let batch := (e :: es).take 50
    let rest := (e :: es).drop 50
    let here ←
      match net (batch.map (·.title)) with
      | none => pure []
      | some pages => processPages pf batch pages
    let later ← batchLoop pf net rest
    pure (here ++ later)
termination_by l => l.length
decreasing_by simp; omega

namespace Helper

/-- `get_coordinates_batch` of `week3d1_helper.py`. -/
def get_coordinates_batch (pf : List Char → Option ℚ)
    (net : List (List Char) → Option (List APIPage))
    (springfields : List CandidateEntry) : Except Unit (List ResolvedPlace) :=
  batchLoop pf net springfields

end Helper

namespace HelperGeneral

/-- `get_coordinates_batch` of `week3d1_helper_general.py`
(character-identical to the Springfield version). -/
def get_coordinates_batch (pf : List Char → Option ℚ)
    (net : List (List Char) → Option (List APIPage))
    (cities : List CandidateEntry) : Except Unit (List ResolvedPlace) :=
  batchLoop pf net cities

end HelperGeneral

/-- Nonnegative decimal integer parse, a concrete instance of `float()`
used to evaluate the resolver on concrete templates. -/
def qOfDigits (l : List Char) : Option ℚ :=
  if l ≠ [] ∧ l.all Char.isDigit then
    some ((l.foldl (fun a c => a * 10 + (c.toNat - 48)) 0 : ℕ) : ℚ)
  else none

/-! ## Spatial joiner (`join_springfields_to_states` lines 200-255,
`join_cities_to_states` lines 200-257)

Point and polygon geometries are opaque library data: the join is
parameterized by a point type `π`, a polygon type `γ` and the geopandas
`within` predicate.  A state row carries the shapefile fields `NAME` and
`STUSPS` (renamed to `state_name` / `state_abbrev` before the join).
`gpd.sjoin(..., how='left', predicate='within')` keeps every left row, gives
null state fields when no polygon contains the point, and duplicates the left
row once per containing polygon otherwise. -/

/-- One row of the states shapefile restricted to the joined columns. -/
structure StateRow (γ : Type) where
  NAME : List Char
  STUSPS : List Char
  geometry : γ
deriving DecidableEq

/-- One row of the point GeoDataFrame handed to the join (the `state` column
is the wiki-derived label, renamed to `state_from_wiki` before joining). -/
structure PlacePoint (π : Type) where
  title : List Char
  city : List Char
  state : List Char
  url : List Char
  point : π
deriving DecidableEq

/-- One row of the joined table. -/
structure JoinedRow (π : Type) where
  title : List Char
  city : List Char
  state_from_wiki : List Char
  url : List Char
  point : π
  state_name : Option (List Char)
  state_abbrev : Option (List Char)
  state_match : Bool
deriving DecidableEq

/-- The row-wise lambda of source lines 242-247 (both files): the match flag
compares stripped labels when both are non-null and is `false` otherwise. -/
def state_match_flag (wiki polyName : Option (List Char)) : Bool :=
  match wiki, polyName with
  | some w, some n => pyStrip w == pyStrip n
  | _, _ => false

/-- Build one joined row from a point row and its (optional) matched state. -/
def mkJoined {π γ : Type} (p : PlacePoint π) (m : Option (StateRow γ)) : JoinedRow π :=
  { title := p.title, city := p.city, state_from_wiki := p.state, url := p.url,
    point := p.point,
    state_name := m.map (·.NAME), state_abbrev := m.map (·.STUSPS),
    state_match := state_match_flag (some p.state) (m.map (·.NAME)) }

/-- The left spatial join for one point row: all containing polygons, or a
single all-null row when there is none. -/
def sjoinLeftRow {π γ : Type} (within : π → γ → Bool) (states : List (StateRow γ))
    (p : PlacePoint π) : List (JoinedRow π) :=
  let ms := states.filter (fun s => within p.point s.geometry)
  if ms.isEmpty then [mkJoined p (none : Option (StateRow γ))]
  else ms.map (fun s => mkJoined p (some s))

/-- `join_springfields_to_states` of `week3d1_helper.py`: left spatial join of
all loaded state polygons against the point rows, plus the match flag. -/
def join_springfields_to_states {π γ : Type} (within : π → γ → Bool)
    (states : List (StateRow γ)) (pts : List (PlacePoint π)) : List (JoinedRow π) :=
  (pts.map (sjoinLeftRow within states)).flatten

/-- The territory filter of `week3d1_helper_general.py` line 223:
`~states_gdf['STUSPS'].isin(['AK', 'HI', 'PR'])`. -/
def excludedTerritories : List (List Char) := ["AK".data, "HI".data, "PR".data]

/-- `join_cities_to_states` of `week3d1_helper_general.py`: identical to the
Springfield join except that Alaska, Hawaii and Puerto Rico are filtered out
of the state table before joining. -/
def join_cities_to_states {π γ : Type} (within : π → γ → Bool)
    (states : List (StateRow γ)) (pts : List (PlacePoint π)) : List (JoinedRow π) :=
  let filtered := states.filter (fun s => !(excludedTerritories.contains s.STUSPS))
  (pts.map (sjoinLeftRow within filtered)).flatten

/-! ## Distribution analyzer (`analyze_springfield_distribution` lines 304-315,
`analyze_cities_distribution` lines 309-320)

`groupby(['state_name', 'state_abbrev']).size()` silently excludes rows whose
group keys hold nulls (pandas `dropna=True` default); `sort_values('count',
ascending=False)` orders the groups by non-increasing count. -/

/-- The group key of a joined row; `none` when either state field is null
(such rows are dropped by the pandas groupby). -/
def groupKey {π : Type} (r : JoinedRow π) : Option (List Char × List Char) :=
  match r.state_name, r.state_abbrev with
  | some n, some a => some (n, a)
  | _, _ => none

/-- Non-increasing count order used by `sort_values('count', ascending=False)`. -/
def countGE (a b : (List Char × List Char) × ℕ) : Prop := b.2 ≤ a.2

instance : DecidableRel countGE := fun a b => Nat.decLe b.2 a.2

instance : IsTotal ((List Char × List Char) × ℕ) countGE :=
  ⟨fun a b => le_total b.2 a.2⟩

instance : IsTrans ((List Char × List Char) × ℕ) countGE :=
  ⟨fun _ _ _ h1 h2 => le_trans h2 h1⟩

/-- `analyze_springfield_distribution` of `week3d1_helper.py`: group the
joined rows by `(state_name, state_abbrev)`, count each group, sort by
descending count. -/
def analyze_springfield_distribution {π : Type} (rows : List (JoinedRow π)) :
    List ((List Char × List Char) × ℕ) :=
  let keys := rows.filterMap groupKey
  List.insertionSort countGE (keys.dedup.map (fun k => (k, keys.count k)))

/-- `analyze_cities_distribution` of `week3d1_helper_general.py`
(character-identical grouping logic). -/
def analyze_cities_distribution {π : Type} (rows : List (JoinedRow π)) :
    List ((List Char × List Char) × ℕ) :=
  let keys := rows.filterMap groupKey
  List.insertionSort countGE (keys.dedup.map (fun k => (k, keys.count k)))

/-! ## Boundary-dataset cache (source lines 205-219 of both join functions)

The file-system effects of the shapefile fetch: create `data/` when missing,
download `data/us_states.zip` only when the file does not yet exist. -/

/-- File-system state seen by the fetch: existence of the `data` directory
and of the cached archive, plus a count of downloads issued so far. -/
structure CacheState where
  dataDirExists : Bool
  zipExists : Bool
  downloads : ℕ
deriving DecidableEq

/-- Source lines 208-216: `os.makedirs('data')` when missing, then download
and write `data/us_states.zip` only when it does not exist. -/
def fetchStatesArchive (s : CacheState) : CacheState :=
  let s1 := if s.dataDirExists then s else { s with dataDirExists := true }
  if s1.zipExists then s1
  else { s1 with zipExists := true, downloads := s1.downloads + 1 }

/-! ## Properties of the string primitives -/

/-- Trailing-whitespace removal, the second half of `pyStrip`. -/
def stripEnd (l : List Char) : List Char :=
  (l.reverse.dropWhile isSpaceChar).reverse

/-- The entries contributed by the bulleted lines of a line block. -/
def sectionEntries (ls : List (List Char)) : List CandidateEntry :=
  ls.filterMap (fun l => if isBulletLine l then processBullet l else none)

theorem pyStrip_eq_stripEnd (l : List Char) :
    pyStrip l = stripEnd (l.dropWhile isSpaceChar) := rfl

theorem dropWhile_self (p : Char → Bool) (l : List Char) :
    (l.dropWhile p).dropWhile p = l.dropWhile p := by
  induction l with
  | nil => rfl
  | cons a l ih =>
    rw [List.dropWhile_cons]
    by_cases h : p a
    · simp [h, ih]
    · simp [List.dropWhile_cons, h]

theorem stripEnd_cons (c : Char) (cs : List Char) (h : isSpaceChar c = false) :
    stripEnd (c :: cs) = c :: stripEnd cs := by
  unfold stripEnd
  rw [show (c :: cs).reverse = cs.reverse ++ [c] by simp, List.dropWhile_append]
  by_cases he : (cs.reverse.dropWhile isSpaceChar).isEmpty
  · rw [if_pos he, List.isEmpty_iff.1 he]
    simp [List.dropWhile_cons, h]
  · rw [if_neg he, List.reverse_append]
    simp

theorem stripEnd_idem (l : List Char) : stripEnd (stripEnd l) = stripEnd l := by
  unfold stripEnd
  rw [List.reverse_reverse, dropWhile_self]

theorem head_not_space_of_dropWhile {l : List Char} {c : Char} {cs : List Char}
    (h : l.dropWhile isSpaceChar = c :: cs) : isSpaceChar c = false := by
  by_cases hp : isSpaceChar c
  · have h2 := dropWhile_self isSpaceChar l
    rw [h, List.dropWhile_cons, if_pos hp] at h2
    have h3 := (List.dropWhile_sublist (l := cs) isSpaceChar).length_le
    rw [h2] at h3
    simp at h3
  · exact Bool.of_not_eq_true hp

theorem pyStrip_idem (l : List Char) : pyStrip (pyStrip l) = pyStrip l := by
  rw [pyStrip_eq_stripEnd, pyStrip_eq_stripEnd]
  cases h : l.dropWhile isSpaceChar with
  | nil => simp [stripEnd]
  | cons c cs =>
    have hc : isSpaceChar c = false := head_not_space_of_dropWhile h
    rw [stripEnd_cons c cs hc, List.dropWhile_cons, hc]
    simp only [Bool.false_eq_true, if_false]
    rw [stripEnd_cons c _ hc, stripEnd_idem]

theorem mem_pyStrip {x : Char} {l : List Char} (h : x ∈ pyStrip l) : x ∈ l := by
  unfold pyStrip at h
  rw [List.mem_reverse] at h
  have h2 := (List.dropWhile_sublist isSpaceChar).mem h
  rw [List.mem_reverse] at h2
  exact (List.dropWhile_sublist isSpaceChar).mem h2

theorem postProcessState_noParen (raw : List Char) : '(' ∉ postProcessState raw := by
  unfold postProcessState
  by_cases h : (pyStrip raw).contains '('
  · simp only [h, if_true]
    intro hm
    have hm2 := List.mem_takeWhile_imp (mem_pyStrip hm)
    simp at hm2
  · simp only [h, Bool.false_eq_true, if_false]
    intro hm
    have h2 : ¬ List.elem '(' (pyStrip raw) = true := h
    exact h2 (List.elem_iff.2 hm)

theorem postProcessState_stripped (raw : List Char) :
    pyStrip (postProcessState raw) = postProcessState raw := by
  unfold postProcessState
  by_cases h : (pyStrip raw).contains '('
  · simp only [h, if_true]
    exact pyStrip_idem _
  · simp only [h, Bool.false_eq_true, if_false]
    exact pyStrip_idem _

theorem hdr3_not_bullet {l : List Char} (h : leadsWith hdr3 l = true) :
    isBulletLine l = false := by
  cases l with
  | nil => simp [leadsWith, hdr3] at h
  | cons c cs =>
    have hc : c = '=' := by
      simp only [hdr3, leadsWith, Bool.and_eq_true, beq_iff_eq] at h
      exact h.1.symm
    subst hc
    unfold isBulletLine
    rw [pyStrip_eq_stripEnd, List.dropWhile_cons]
    have hs : isSpaceChar '=' = false := by decide
    simp only [hs, Bool.false_eq_true, if_false]
    rw [stripEnd_cons _ _ hs]
    simp [leadsWith]

/-! ## Properties of the parser loop -/

theorem parseLines_marker {line : List Char} (rest : List (List Char)) (b : Bool)
    (h : containsSeq usMarker line = true) :
    parseLines (line :: rest) b = parseLines rest true := by
  simp [parseLines, h]

theorem parseLines_skip_false {line : List Char} (rest : List (List Char))
    (h : containsSeq usMarker line = false) :
    parseLines (line :: rest) false = parseLines rest false := by
  simp [parseLines, h]

theorem parseLines_hdr {line : List Char} (rest : List (List Char))
    (h1 : containsSeq usMarker line = false) (h2 : leadsWith hdr3 line = true) :
    parseLines (line :: rest) true = [] := by
  simp [parseLines, h1, h2]

theorem parseLines_bullet {line : List Char} (rest : List (List Char))
    (h1 : containsSeq usMarker line = false) (h2 : leadsWith hdr3 line = false)
    (h3 : isBulletLine line = true) :
    parseLines (line :: rest) true
      = (processBullet line).toList ++ parseLines rest true := by
  simp only [parseLines, h1, h2, h3, Bool.false_eq_true, if_false, Bool.and_true,
    Bool.true_and, if_true]
  cases processBullet line <;> simp

theorem parseLines_other {line : List Char} (rest : List (List Char)) (b : Bool)
    (h1 : containsSeq usMarker line = false) (h2 : leadsWith hdr3 line = false)
    (h3 : isBulletLine line = false) :
    parseLines (line :: rest) b = parseLines rest b := by
  cases b <;> simp [parseLines, h1, h2, h3]

/-- Lines before the first marker line contribute nothing. -/
theorem parseLines_pre (pre rest : List (List Char))
    (hpre : ∀ l ∈ pre, containsSeq usMarker l = false) :
    parseLines (pre ++ rest) false = parseLines rest false := by
  induction pre with
  | nil => rfl
  | cons l ls ih =>
    rw [List.cons_append,
      parseLines_skip_false _ (hpre l (List.mem_cons_self l ls)),
      ih (fun x hx => hpre x (List.mem_cons_of_mem l hx))]

/-- Inside the section, the scan collects bullet entries up to the first
line starting with `===`, and everything after that line is ignored. -/
theorem parseLines_section (mid : List (List Char)) (endline : List Char)
    (post : List (List Char))
    (hmid : ∀ l ∈ mid, containsSeq usMarker l = false ∧ leadsWith hdr3 l = false)
    (hend1 : containsSeq usMarker endline = false)
    (hend2 : leadsWith hdr3 endline = true) :
    parseLines (mid ++ endline :: post) true = sectionEntries mid := by
  induction mid with
  | nil =>
    rw [List.nil_append, parseLines_hdr post hend1 hend2]
    rfl
  | cons l ls ih =>
    obtain ⟨h1, h2⟩ := hmid l (List.mem_cons_self l ls)
    have ihls := ih (fun x hx => hmid x (List.mem_cons_of_mem l hx))
    rw [List.cons_append]
    by_cases h3 : isBulletLine l
    · rw [parseLines_bullet _ h1 h2 h3, ihls]
      unfold sectionEntries
      rw [List.filterMap_cons]
      simp only [h3, if_true]
      cases processBullet l <;> simp [sectionEntries]
    · rw [parseLines_other _ true h1 h2 (Bool.of_not_eq_true h3), ihls]
      unfold sectionEntries
      rw [List.filterMap_cons]
      simp [h3, sectionEntries]

/-- Every emitted entry comes from some line through `processBullet`. -/
theorem mem_parseLines {e : CandidateEntry} :
    ∀ {ls : List (List Char)} {b : Bool}, e ∈ parseLines ls b →
      ∃ l ∈ ls, processBullet l = some e := by
  intro ls
  induction ls with
  | nil => intro b h; simp [parseLines] at h
  | cons l rest ih =>
    intro b h
    by_cases h1 : containsSeq usMarker l
    · rw [parseLines_marker rest b h1] at h
      obtain ⟨x, hx, he⟩ := ih h
      exact ⟨x, List.mem_cons_of_mem l hx, he⟩
    · have h1f : containsSeq usMarker l = false := Bool.of_not_eq_true h1
      cases b with
      | false =>
        rw [parseLines_skip_false rest h1f] at h
        obtain ⟨x, hx, he⟩ := ih h
        exact ⟨x, List.mem_cons_of_mem l hx, he⟩
      | true =>
        by_cases h2 : leadsWith hdr3 l
        · rw [parseLines_hdr rest h1f h2] at h
          simp at h
        · have h2f : leadsWith hdr3 l = false := Bool.of_not_eq_true h2
          by_cases h3 : isBulletLine l
          · rw [parseLines_bullet rest h1f h2f h3] at h
            rcases List.mem_append.1 h with hin | hin
            · refine ⟨l, List.mem_cons_self l rest, ?_⟩
              cases hpb : processBullet l with
              | none => rw [hpb] at hin; simp at hin
              | some x =>
                rw [hpb] at hin
                simp only [Option.toList, List.mem_singleton] at hin
                rw [hin]
            · obtain ⟨x, hx, he⟩ := ih hin
              exact ⟨x, List.mem_cons_of_mem l hx, he⟩
          · rw [parseLines_other rest true h1f h2f (Bool.of_not_eq_true h3)] at h
            obtain ⟨x, hx, he⟩ := ih h
            exact ⟨x, List.mem_cons_of_mem l hx, he⟩

/-- Inserting a bulleted line that parses to no entry anywhere in the line
list leaves the collected output unchanged, provided the line does not
contain the section marker. -/
theorem parseLines_insert_none {m : List Char}
    (hm : containsSeq usMarker m = false) (hb : isBulletLine m = true)
    (hnone : processBullet m = none) :
    ∀ (ls1 ls2 : List (List Char)) (b : Bool),
      parseLines (ls1 ++ m :: ls2) b = parseLines (ls1 ++ ls2) b := by
  intro ls1
  induction ls1 with
  | nil =>
    intro ls2 b
    cases b with
    | false => exact parseLines_skip_false ls2 hm
    | true =>
      have h2 : leadsWith hdr3 m = false := by
        by_cases hh : leadsWith hdr3 m
        · rw [hdr3_not_bullet hh] at hb; cases hb
        · exact Bool.of_not_eq_true hh
      rw [List.nil_append, List.nil_append, parseLines_bullet ls2 hm h2 hb, hnone]
      rfl
  | cons l rest ih =>
    intro ls2 b
    rw [List.cons_append, List.cons_append]
    by_cases h1 : containsSeq usMarker l
    · rw [parseLines_marker _ b h1, parseLines_marker _ b h1, ih]
    · have h1f : containsSeq usMarker l = false := Bool.of_not_eq_true h1
      cases b with
      | false => rw [parseLines_skip_false _ h1f, parseLines_skip_false _ h1f, ih]
      | true =>
        by_cases h2 : leadsWith hdr3 l
        · rw [parseLines_hdr _ h1f h2, parseLines_hdr _ h1f h2]
        · have h2f : leadsWith hdr3 l = false := Bool.of_not_eq_true h2
          by_cases h3 : isBulletLine l
          · rw [parseLines_bullet _ h1f h2f h3, parseLines_bullet _ h1f h2f h3, ih]
          · have h3f : isBulletLine l = false := Bool.of_not_eq_true h3
            rw [parseLines_other _ true h1f h2f h3f, parseLines_other _ true h1f h2f h3f, ih]

/-! ## Splitting and joining lines -/

theorem splitLines_no_newline {l : List Char} (h : '\n' ∉ l) : splitLines l = [l] := by
  induction l with
  | nil => rfl
  | cons c cs ih =>
    simp only [List.mem_cons, not_or] at h
    obtain ⟨h1, h2⟩ := h
    simp only [splitLines]
    rw [if_neg (fun e => h1 e.symm), ih h2]

theorem splitLines_append_newline {l t : List Char} (h : '\n' ∉ l) :
    splitLines (l ++ '\n' :: t) = l :: splitLines t := by
  induction l with
  | nil => simp [splitLines]
  | cons c cs ih =>
    simp only [List.mem_cons, not_or] at h
    obtain ⟨h1, h2⟩ := h
    rw [List.cons_append]
    simp only [splitLines]
    rw [if_neg (fun e => h1 e.symm), ih h2]

theorem splitLines_joinLines :
    ∀ {ls : List (List Char)}, ls ≠ [] → (∀ l ∈ ls, '\n' ∉ l) →
      splitLines (joinLines ls) = ls := by
  intro ls
  induction ls with
  | nil => intro hne _; cases hne rfl
  | cons l rest ih =>
    intro _ h
    cases rest with
    | nil => exact splitLines_no_newline (h l (List.mem_cons_self l []))
    | cons l2 rest2 =>
      rw [show joinLines (l :: l2 :: rest2) = l ++ '\n' :: joinLines (l2 :: rest2) from rfl,
        splitLines_append_newline (h l (List.mem_cons_self l (l2 :: rest2))),
        ih (by simp) (fun x hx => h x (List.mem_cons_of_mem l hx))]

theorem parseLines_nil_line (ls : List (List Char)) (b : Bool) :
    parseLines ([] :: ls) b = parseLines ls b :=
  parseLines_other ls b (by decide) (by decide) (by decide)

/-- Parsing a joined block of newline-free lines is parsing the lines. -/
theorem parse_joinLines (ls : List (List Char)) (h : ∀ l ∈ ls, '\n' ∉ l) :
    parseLines (splitLines (joinLines ls)) false = parseLines ls false := by
  cases ls with
  | nil => exact parseLines_nil_line [] false
  | cons l rest =>
    rw [splitLines_joinLines (by simp) h]

/-! ## Properties of the spatial join -/

/-- Every row of the left spatial join is built by `mkJoined` from an input
point row and an optional matched state row. -/
theorem mem_join_springfields {π γ : Type} {within : π → γ → Bool}
    {states : List (StateRow γ)} {pts : List (PlacePoint π)} {row : JoinedRow π}
    (h : row ∈ join_springfields_to_states within states pts) :
    ∃ (p : PlacePoint π) (m : Option (StateRow γ)), row = mkJoined p m := by
  unfold join_springfields_to_states at h
  rw [List.mem_flatten] at h
  obtain ⟨l, hl, hrow⟩ := h
  rw [List.mem_map] at hl
  obtain ⟨p, _, rfl⟩ := hl
  unfold sjoinLeftRow at hrow
  by_cases hf : (states.filter (fun s => within p.point s.geometry)).isEmpty
  · rw [if_pos hf] at hrow
    rw [List.mem_singleton] at hrow
    exact ⟨p, none, hrow⟩
  · rw [if_neg hf, List.mem_map] at hrow
    obtain ⟨s, _, hs⟩ := hrow
    exact ⟨p, some s, hs.symm⟩

/-! ## Claims -/

/-- Claim C1 (amended): for every row produced by either spatial join, the
`state_match` flag is `true` exactly when the polygon-side state name is
non-null and equals the wiki-derived label after stripping leading/trailing
whitespace on both sides.  The comparison is case-sensitive: whitespace-only
differences at the ends cannot produce a false negative, but case or content
differences do. -/
theorem state_match_characterization :
    (∀ (π γ : Type) (within : π → γ → Bool) (states : List (StateRow γ))
        (pts : List (PlacePoint π)) (row : JoinedRow π),
        row ∈ join_springfields_to_states within states pts →
        (row.state_match = true ↔
          ∃ n, row.state_name = some n ∧ pyStrip row.state_from_wiki = pyStrip n)) ∧
    (∀ (π γ : Type) (within : π → γ → Bool) (states : List (StateRow γ))
        (pts : List (PlacePoint π)) (row : JoinedRow π),
        row ∈ join_cities_to_states within states pts →
        (row.state_match = true ↔
          ∃ n, row.state_name = some n ∧ pyStrip row.state_from_wiki = pyStrip n)) := by
  have key : ∀ (π γ : Type) (within : π → γ → Bool) (states : List (StateRow γ))
      (pts : List (PlacePoint π)) (row : JoinedRow π),
      row ∈ join_springfields_to_states within states pts →
      (row.state_match = true ↔
        ∃ n, row.state_name = some n ∧ pyStrip row.state_from_wiki = pyStrip n) := by
    intro π γ within states pts row h
    obtain ⟨p, m, rfl⟩ := mem_join_springfields h
    cases m with
    | none => simp [mkJoined, state_match_flag]
    | some s => simp [mkJoined, state_match_flag]
  refine ⟨key, ?_⟩
  intro π γ within states pts row h
  exact key π γ within _ pts row h

theorem state_match_characterization_witness :
    (mkJoined (⟨"t".data, "c".data, "Ohio".data, "u".data, ()⟩ : PlacePoint Unit)
        (some (⟨"Ohio".data, "OH".data, ()⟩ : StateRow Unit))
      ∈ join_springfields_to_states (fun (_ : Unit) (_ : Unit) => true)
          [⟨"Ohio".data, "OH".data, ()⟩]
          [⟨"t".data, "c".data, "Ohio".data, "u".data, ()⟩]) ∧
    ((mkJoined (⟨"t".data, "c".data, "Ohio".data, "u".data, ()⟩ : PlacePoint Unit)
        (some (⟨"Ohio".data, "OH".data, ()⟩ : StateRow Unit))).state_match = true ↔
      ∃ n, (mkJoined (⟨"t".data, "c".data, "Ohio".data, "u".data, ()⟩ : PlacePoint Unit)
        (some (⟨"Ohio".data, "OH".data, ()⟩ : StateRow Unit))).state_name = some n ∧
        pyStrip (mkJoined (⟨"t".data, "c".data, "Ohio".data, "u".data, ()⟩ : PlacePoint Unit)
          (some (⟨"Ohio".data, "OH".data, ()⟩ : StateRow Unit))).state_from_wiki = pyStrip n) :=
  ⟨by decide,
   state_match_characterization.1 Unit Unit (fun _ _ => true)
     [⟨"Ohio".data, "OH".data, ()⟩] [⟨"t".data, "c".data, "Ohio".data, "u".data, ()⟩]
     _ (by decide)⟩

/-- Claim C1, counterexample to the claim as stated: the wiki label `ohio`
and the polygon name `Ohio` differ only in letter case (their upper-cased
stripped forms agree), yet the joiner flags the row `false`.  The claim
demands that a case difference not cause a false negative. -/
theorem state_match_case_counterexample :
    (join_springfields_to_states (fun (_ : Unit) (_ : Unit) => true)
        [⟨"Ohio".data, "OH".data, ()⟩]
        [⟨"t".data, "c".data, "ohio".data, "u".data, ()⟩]).map (·.state_match) = [false] ∧
    pyUpper (pyStrip "ohio".data) = pyUpper (pyStrip "Ohio".data) := by decide

/-- Claim C5: a page without structured coordinate metadata whose revision
content contains an eight-field coordinate template resolves to
degrees + minutes/60 + seconds/3600, negating latitude exactly when the
upper-cased latitude hemisphere is `S` and longitude exactly when the
upper-cased longitude hemisphere is `W`. -/
theorem coord_template_conversion (pf : List Char → Option ℚ) (page : APIPage)
    (content : List Char) (restRevs : List (List Char))
    (latDeg latMin latSec latDir lonDeg lonMin lonSec lonDir : List Char)
    (a b c d e f : ℚ)
    (hco : page.coordinates = none)
    (hrev : page.revisions = some (content :: restRevs))
    (htmpl : findCoordTemplate content
      = some [latDeg, latMin, latSec, latDir, lonDeg, lonMin, lonSec, lonDir])
    (ha : pf latDeg = some a) (hb : pf latMin = some b) (hc : pf latSec = some c)
    (hd : pf lonDeg = some d) (he : pf lonMin = some e) (hf : pf lonSec = some f) :
    extractPageCoordinates pf page =
      .ok (some ⟨(if pyUpper latDir = "S".data then -(a + b / 60 + c / 3600)
                    else a + b / 60 + c / 3600),
                 (if pyUpper lonDir = "W".data then -(d + e / 60 + f / 3600)
                    else d + e / 60 + f / 3600)⟩) := by
  simp only [extractPageCoordinates, hco, hrev, htmpl, ha, hb, hc, hd, he, hf]
  simp [coordFromTemplate]

theorem coord_template_conversion_witness :
    findCoordTemplate "\x7b\x7bcoord|39|55|0|N|83|48|0|W\x7d\x7d".data
      = some ["39".data, "55".data, "0".data, "N".data,
              "83".data, "48".data, "0".data, "W".data] ∧
    extractPageCoordinates qOfDigits
        ⟨"Springfield, Ohio".data, none,
         some ["\x7b\x7bcoord|39|55|0|N|83|48|0|W\x7d\x7d".data], none⟩
      = .ok (some ⟨479 / 12, -419 / 5⟩) := by
  refine ⟨by decide, ?_⟩
  rw [coord_template_conversion qOfDigits _
    "\x7b\x7bcoord|39|55|0|N|83|48|0|W\x7d\x7d".data []
    "39".data "55".data "0".data "N".data "83".data "48".data "0".data "W".data
    ((39 : ℕ) : ℚ) ((55 : ℕ) : ℚ) ((0 : ℕ) : ℚ) ((83 : ℕ) : ℚ) ((48 : ℕ) : ℚ) ((0 : ℕ) : ℚ)
    rfl rfl (by decide) rfl rfl rfl rfl rfl rfl]
  rw [if_neg (by decide), if_pos (by decide)]
  norm_num

/-- Claim C6 (amended): the two parsers compute the same function and the two
`get_coordinates_batch` functions are equal, but the two join stages differ:
the generalized join equals the Springfield join applied to the state table
with `AK`/`HI`/`PR` filtered out (so the two joins disagree on points falling
inside those territories). -/
theorem pipelines_agree_up_to_territory_filter :
    (∀ content : List Char,
        parse_us_springfields_from_wikitext content
          = parse_us_cities_from_wikitext content) ∧
    (∀ (pf : List Char → Option ℚ) (net : List (List Char) → Option (List APIPage))
        (entries : List CandidateEntry),
        Helper.get_coordinates_batch pf net entries
          = HelperGeneral.get_coordinates_batch pf net entries) ∧
    (∀ (π γ : Type) (within : π → γ → Bool) (states : List (StateRow γ))
        (pts : List (PlacePoint π)),
        join_cities_to_states within states pts
          = join_springfields_to_states within
              (states.filter (fun s => !(excludedTerritories.contains s.STUSPS))) pts) :=
  ⟨fun _ => rfl, fun _ _ _ => rfl, fun _ _ _ _ _ => rfl⟩

/-- Claim C6, counterexample to the claim as stated: on a state table holding
Alaska and a point inside it, the Springfield join assigns the Alaska
polygon while the generalized join filters Alaska away and yields null state
fields, so the two join functions are not equal on every input. -/
theorem join_functions_differ :
    join_springfields_to_states (fun (_ : Unit) (_ : Unit) => true)
        [⟨"Alaska".data, "AK".data, ()⟩]
        [⟨"t".data, "c".data, "Alaska".data, "u".data, ()⟩]
      ≠ join_cities_to_states (fun (_ : Unit) (_ : Unit) => true)
        [⟨"Alaska".data, "AK".data, ()⟩]
        [⟨"t".data, "c".data, "Alaska".data, "u".data, ()⟩] := by decide

/-- Claim C8: the boundary-archive fetch is idempotent.  When the cached zip
exists the fetch changes nothing except possibly creating the data directory
and issues no download; two consecutive fetches issue at most one download,
the second one never downloading. -/
theorem boundary_fetch_idempotent (s : CacheState) :
    (s.zipExists = true → fetchStatesArchive s = { s with dataDirExists := true }) ∧
    (fetchStatesArchive (fetchStatesArchive s)).downloads ≤ s.downloads + 1 ∧
    (fetchStatesArchive (fetchStatesArchive s)).downloads
      = (fetchStatesArchive s).downloads := by
  obtain ⟨d, z, n⟩ := s
  cases d <;> cases z <;> simp [fetchStatesArchive]

theorem boundary_fetch_idempotent_witness :
    fetchStatesArchive ⟨true, true, 5⟩ = ⟨true, true, 5⟩ ∧
    (fetchStatesArchive (fetchStatesArchive ⟨true, true, 5⟩)).downloads ≤ 5 + 1 :=
  ⟨(boundary_fetch_idempotent ⟨true, true, 5⟩).1 rfl,
   (boundary_fetch_idempotent ⟨true, true, 5⟩).2.1⟩

/-- Claim C10: when a batched page carries a `coordinates` key holding the
empty list, the per-page processing of the coordinate resolver fails with the
uncaught index error instead of silently dropping the entry, for any page
matched back to a candidate entry. -/
theorem coordinates_empty_list_errors (pf : List Char → Option ℚ)
    (batch : List CandidateEntry) (page : APIPage) (original : CandidateEntry)
    (hfound : batch.find? (fun s => s.title == page.title) = some original)
    (hempty : page.coordinates = some []) :
    processPage pf batch page = .error () := by
  simp only [processPage, hfound]
  simp only [extractPageCoordinates, hempty]
  rfl

theorem coordinates_empty_list_errors_witness :
    (⟨"T".data, some [], none, none⟩ : APIPage).coordinates = some [] ∧
    processPage qOfDigits [⟨"T".data, "C".data, "S".data⟩]
      ⟨"T".data, some [], none, none⟩ = .error () :=
  ⟨rfl,
   coordinates_empty_list_errors qOfDigits [⟨"T".data, "C".data, "S".data⟩]
     ⟨"T".data, some [], none, none⟩ ⟨"T".data, "C".data, "S".data⟩ (by decide) rfl⟩

theorem length_filterMap_eq_countP {α β : Type} (f : α → Option β) (l : List α) :
    (l.filterMap f).length = l.countP (fun a => (f a).isSome) := by
  induction l with
  | nil => rfl
  | cons a l ih =>
    rw [List.filterMap_cons]
    cases h : f a <;> simp [List.countP_cons, h, ih]

theorem sum_map_count_dedup_pairs (keys : List (List Char × List Char)) :
    (keys.dedup.map (fun k => keys.count k)).sum = keys.length := by
  have hb : ∀ k, keys.count k = @List.count _ instBEqOfDecidableEq k keys := by
    intro k
    rw [@List.count_eq_countP _ instBEqProd, @List.count_eq_countP _ instBEqOfDecidableEq]
    apply List.countP_congr
    intro a _
    rw [Bool.eq_iff_iff]
    simp [beq_iff_eq, instBEqOfDecidableEq]
  calc (keys.dedup.map (fun k => keys.count k)).sum
      = (keys.dedup.map (fun k => @List.count _ instBEqOfDecidableEq k keys)).sum := by
        rw [funext hb]
    _ = keys.length := List.sum_map_count_dedup_eq_length keys

/-- Claim C2 (amended): the two analyzers are the same function; the output
counts sum to the number of joined rows whose state fields are BOTH non-null
(rows left null by an unmatched spatial join are silently dropped by the
group-by), and the output is ordered by non-increasing count. -/
theorem distribution_sum_and_sorted :
    ∀ (π : Type) (rows : List (JoinedRow π)),
      analyze_springfield_distribution rows = analyze_cities_distribution rows ∧
      ((analyze_springfield_distribution rows).map (fun g => g.2)).sum
        = rows.countP (fun r => (groupKey r).isSome) ∧
      (analyze_springfield_distribution rows).Sorted countGE := by
  intro π rows
  have h1 : analyze_springfield_distribution rows
      = List.insertionSort countGE
          ((rows.filterMap groupKey).dedup.map
            (fun k => (k, (rows.filterMap groupKey).count k))) := rfl
  refine ⟨rfl, ?_, ?_⟩
  · rw [h1]
    have hperm :
        ((List.insertionSort countGE
            ((rows.filterMap groupKey).dedup.map
              (fun k => (k, (rows.filterMap groupKey).count k)))).map (fun g => g.2)).Perm
          (((rows.filterMap groupKey).dedup.map
              (fun k => (k, (rows.filterMap groupKey).count k))).map (fun g => g.2)) :=
      (List.perm_insertionSort countGE _).map _
    rw [hperm.sum_eq, List.map_map]
    have h2 : ((fun g : (List Char × List Char) × ℕ => g.2) ∘
        (fun k => (k, (rows.filterMap groupKey).count k)))
        = fun k => (rows.filterMap groupKey).count k := rfl
    rw [h2, sum_map_count_dedup_pairs, length_filterMap_eq_countP]
  · rw [h1]
    exact List.sorted_insertionSort countGE _

/-- Claim C2, counterexample to the claim as stated: a joined table holding
one row with null state fields (an unmatched spatial join) has total length
one, but the analyzer output counts sum to zero — the null row is not
included in the distribution. -/
theorem distribution_drops_null_rows :
    ([(⟨"t".data, "c".data, "s".data, "u".data, (), none, none, false⟩
        : JoinedRow Unit)].length = 1) ∧
    ((analyze_springfield_distribution
        [(⟨"t".data, "c".data, "s".data, "u".data, (), none, none, false⟩
          : JoinedRow Unit)]).map (fun g => g.2)).sum = 0 := by decide

/-- Claim C3 (amended): every emitted entry is split at the FIRST comma of
its (pipe-trimmed) title; the city field is the left part exactly as written
— NOT trimmed of surrounding whitespace — while the state field is the right
part stripped (and truncated at a parenthesis and re-stripped). -/
theorem comma_split_fields :
    ∀ (content : List Char) (e : CandidateEntry),
      (e ∈ parse_us_springfields_from_wikitext content ∨
       e ∈ parse_us_cities_from_wikitext content) →
      e.title.contains ',' = true ∧
      e.city = beforeChar ',' e.title ∧
      e.state = postProcessState (afterChar ',' e.title) := by
  intro content e h
  have h2 : e ∈ parseLines (splitLines content) false := by
    cases h with | inl h => exact h | inr h => exact h
  obtain ⟨l, _, hpb⟩ := mem_parseLines h2
  unfold processBullet at hpb
  rw [Option.bind_eq_some] at hpb
  obtain ⟨link, _, hsp⟩ := hpb
  unfold splitEntry at hsp
  by_cases hcomma : (pipeTrim link).contains ','
  · rw [if_pos hcomma] at hsp
    have he := Option.some.inj hsp
    subst he
    exact ⟨hcomma, rfl, rfl⟩
  · rw [if_neg hcomma] at hsp
    cases hsp

theorem comma_split_fields_witness :
    ((⟨" Paris , Texas".data, " Paris ".data, "Texas".data⟩ : CandidateEntry)
        ∈ parse_us_springfields_from_wikitext
            "=== United States ===\n* [[ Paris , Texas]]".data) ∧
    " Paris , Texas".data.contains ',' = true ∧
    " Paris ".data = beforeChar ',' " Paris , Texas".data ∧
    "Texas".data = postProcessState (afterChar ',' " Paris , Texas".data) :=
  ⟨by decide,
   comma_split_fields "=== United States ===\n* [[ Paris , Texas]]".data
     ⟨" Paris , Texas".data, " Paris ".data, "Texas".data⟩ (Or.inl (by decide))⟩

/-- Claim C3, counterexample to the claim as stated: the city field keeps the
surrounding whitespace of the left split part; it is not trimmed, while the
claim requires both city and state to be trimmed. -/
theorem city_not_trimmed_counterexample :
    parse_us_springfields_from_wikitext
        "=== United States ===\n* [[ Springfield , Ohio]]".data
      = [⟨" Springfield , Ohio".data, " Springfield ".data, "Ohio".data⟩] ∧
    pyStrip " Springfield ".data ≠ " Springfield ".data := by decide

/-- Claim C4 (amended): collection begins after the first line CONTAINING
`=== United States ===` as a substring (a deeper heading such as
`==== United States ====` also triggers it), and ends at the first
subsequent line STARTING WITH `===` — so headings of level three or deeper
end collection while level-one/two heading lines do not — and everything
after that terminating line is ignored, even a later United States
heading. -/
theorem us_section_window :
    ∀ (pre mid post : List (List Char)) (hline endline : List Char),
      (∀ l ∈ pre, '\n' ∉ l) → '\n' ∉ hline → (∀ l ∈ mid, '\n' ∉ l) →
      '\n' ∉ endline → (∀ l ∈ post, '\n' ∉ l) →
      (∀ l ∈ pre, containsSeq usMarker l = false) →
      containsSeq usMarker hline = true →
      (∀ l ∈ mid, containsSeq usMarker l = false ∧ leadsWith hdr3 l = false) →
      containsSeq usMarker endline = false →
      leadsWith hdr3 endline = true →
      parse_us_springfields_from_wikitext
          (joinLines (pre ++ hline :: (mid ++ endline :: post)))
        = sectionEntries mid ∧
      parse_us_cities_from_wikitext
          (joinLines (pre ++ hline :: (mid ++ endline :: post)))
        = sectionEntries mid := by
  intro pre mid post hline endline hnl1 hnl2 hnl3 hnl4 hnl5 hpre hh hmid hend1 hend2
  have hnlAll : ∀ l ∈ pre ++ hline :: (mid ++ endline :: post), '\n' ∉ l := by
    intro l hl
    rcases List.mem_append.1 hl with h | h
    · exact hnl1 l h
    · rcases List.mem_cons.1 h with rfl | h
      · exact hnl2
      · rcases List.mem_append.1 h with h | h
        · exact hnl3 l h
        · rcases List.mem_cons.1 h with rfl | h
          · exact hnl4
          · exact hnl5 l h
  have key : parseLines
      (splitLines (joinLines (pre ++ hline :: (mid ++ endline :: post)))) false
      = sectionEntries mid := by
    rw [parse_joinLines _ hnlAll, parseLines_pre pre _ hpre,
      parseLines_marker _ false hh]
    exact parseLines_section mid endline post hmid hend1 hend2
  exact ⟨key, key⟩

theorem us_section_window_witness :
    containsSeq usMarker "=== United States ===".data = true ∧
    leadsWith hdr3 "=== Canada ===".data = true ∧
    parse_us_springfields_from_wikitext
        (joinLines (["intro".data] ++ "=== United States ===".data ::
          (["* [[A, B]]".data, "== Other ==".data] ++
            "=== Canada ===".data :: ["* [[C, D]]".data])))
      = sectionEntries ["* [[A, B]]".data, "== Other ==".data] :=
  ⟨by decide, by decide,
   (us_section_window ["intro".data] ["* [[A, B]]".data, "== Other ==".data]
      ["* [[C, D]]".data] "=== United States ===".data "=== Canada ===".data
      (by decide) (by decide) (by decide) (by decide) (by decide)
      (by decide) (by decide) (by decide) (by decide) (by decide)).1⟩

/-- Claim C4, counterexample to the claim as stated: a second-level heading
(`== Canada ==`) after the United States heading does not end collection —
the bullet after it is still collected — and a fourth-level
`==== United States ====` heading also starts collection; the claim requires
collection to end at any heading of level three or shallower and to start
only at an exactly-third-level heading. -/
theorem heading_level_counterexample :
    parse_us_springfields_from_wikitext
        "=== United States ===\n== Canada ==\n* [[Paris, Texas]]".data
      = [⟨"Paris, Texas".data, "Paris".data, "Texas".data⟩] ∧
    parse_us_springfields_from_wikitext
        "==== United States ====\n* [[Paris, Texas]]".data
      = [⟨"Paris, Texas".data, "Paris".data, "Texas".data⟩] := by decide

/-- Claim C7: a bulleted line whose extracted (pipe-trimmed) link target
contains no comma yields no entry, and its presence leaves every other
output of the parser unchanged, wherever it stands (as long as the line does
not itself contain the section marker substring). -/
theorem no_comma_line_dropped :
    ∀ (ls1 ls2 : List (List Char)) (m link : List Char),
      (∀ l ∈ ls1, '\n' ∉ l) → '\n' ∉ m → (∀ l ∈ ls2, '\n' ∉ l) →
      containsSeq usMarker m = false →
      isBulletLine m = true →
      firstLink m = some link →
      (pipeTrim link).contains ',' = false →
      parse_us_springfields_from_wikitext (joinLines (ls1 ++ m :: ls2))
        = parse_us_springfields_from_wikitext (joinLines (ls1 ++ ls2)) := by
  intro ls1 ls2 m link h1 h2 h3 hm hb hfl hnc
  have hnone : processBullet m = none := by
    unfold processBullet
    rw [hfl]
    show splitEntry (pipeTrim link) = none
    unfold splitEntry
    rw [if_neg (fun hcon => by rw [hnc] at hcon; cases hcon)]
  have hall1 : ∀ l ∈ ls1 ++ m :: ls2, '\n' ∉ l := by
    intro l hl
    rcases List.mem_append.1 hl with h | h
    · exact h1 l h
    · rcases List.mem_cons.1 h with rfl | h
      · exact h2
      · exact h3 l h
  have hall2 : ∀ l ∈ ls1 ++ ls2, '\n' ∉ l := by
    intro l hl
    rcases List.mem_append.1 hl with h | h
    · exact h1 l h
    · exact h3 l h
  unfold parse_us_springfields_from_wikitext
  rw [parse_joinLines _ hall1, parse_joinLines _ hall2]
  exact parseLines_insert_none hm hb hnone ls1 ls2 false

theorem no_comma_line_dropped_witness :
    firstLink "* [[Springfield metropolitan area]]".data
      = some "Springfield metropolitan area".data ∧
    (pipeTrim "Springfield metropolitan area".data).contains ',' = false ∧
    parse_us_springfields_from_wikitext
        (joinLines (["=== United States ===".data] ++
          "* [[Springfield metropolitan area]]".data :: ["* [[Paris, Texas]]".data]))
      = parse_us_springfields_from_wikitext
          (joinLines (["=== United States ===".data] ++ ["* [[Paris, Texas]]".data])) :=
  ⟨by decide, by decide,
   no_comma_line_dropped ["=== United States ===".data] ["* [[Paris, Texas]]".data]
     "* [[Springfield metropolitan area]]".data "Springfield metropolitan area".data
     (by decide) (by decide) (by decide) (by decide) (by decide) (by decide) (by decide)⟩

/-- Claim C9: the state field of every entry emitted by either parser
contains no open parenthesis and carries no leading or trailing whitespace
(stripping it is the identity). -/
theorem state_field_invariant :
    ∀ (content : List Char) (e : CandidateEntry),
      (e ∈ parse_us_springfields_from_wikitext content ∨
       e ∈ parse_us_cities_from_wikitext content) →
      '(' ∉ e.state ∧ pyStrip e.state = e.state := by
  intro content e h
  have h2 : e ∈ parseLines (splitLines content) false := by
    cases h with | inl h => exact h | inr h => exact h
  obtain ⟨l, _, hpb⟩ := mem_parseLines h2
  unfold processBullet at hpb
  rw [Option.bind_eq_some] at hpb
  obtain ⟨link, _, hsp⟩ := hpb
  unfold splitEntry at hsp
  by_cases hcomma : (pipeTrim link).contains ','
  · rw [if_pos hcomma] at hsp
    have he := Option.some.inj hsp
    subst he
    exact ⟨postProcessState_noParen _, postProcessState_stripped _⟩
  · rw [if_neg hcomma] at hsp
    cases hsp

theorem state_field_invariant_witness :
    ((⟨"Springfield, Ohio (town)".data, "Springfield".data, "Ohio".data⟩ : CandidateEntry)
        ∈ parse_us_springfields_from_wikitext
            "=== United States ===\n* [[Springfield, Ohio (town)]]".data) ∧
    '(' ∉ ("Ohio".data : List Char) ∧ pyStrip "Ohio".data = "Ohio".data :=
  ⟨by decide,
   state_field_invariant "=== United States ===\n* [[Springfield, Ohio (town)]]".data
     ⟨"Springfield, Ohio (town)".data, "Springfield".data, "Ohio".data⟩
     (Or.inl (by decide))⟩

